import Mathlib

/-!
Shallow embedding of the msupply-dashboard-app backend (Go) and proofs about it.

The embedding covers:
* `pkg/auth`: `AuthConfig`, `AuthString`, `InjectAuthString` (credential injection
  into the Grafana URL via leftmost literal-pattern search, `http://` checked first);
* `pkg/dbstore`: `GetDataSource` (fixed database path), `Init` (five
  `CREATE TABLE IF NOT EXISTS` statements, panicking on any initialization error),
  `QueryData`/`query` (queries always rejected), `CheckHealth` (ping result mapped
  to a health status, never a Go error);
* `pkg/server`: the `testEmail` HTTP handler, modelled as the trace of externally
  visible events (HTTP writes, the `CreateReport` call, panics);
* the Schedule row store (CRUD round-trip), modelled from the spec since the row
  access handlers are outside the provided sources.

Go strings handled character-wise are `List Char`; machine integers that are only
carried around, never overflowed, are `Int`; fallible Go calls are `Except`/`Option`
parameters of the function under scrutiny.
-/

/-! ## Literal substring search (Go `regexp.FindStringIndex` on a literal pattern)

`"http://"` and `"https://"` contain no regexp metacharacters, so
`regexp.MustCompile(pat).FindStringIndex(s)` is exactly: the leftmost occurrence of
`pat` in `s` as a pair (start, end), `end = start + pat.length`, or `nil` when there
is none. -/

/-- Boolean test that `t` starts with `pat` (character-wise). -/
def startsWith : List Char → List Char → Bool
  | [], _ => true
  | _ :: _, [] => false
  | p :: ps, c :: cs => p == c && startsWith ps cs

/-- Leftmost-match search, carrying the absolute index `i` of the head of `s`.
Returns the (start, end) pair of the first occurrence of `pat`, as Go's
`FindStringIndex` does for a literal pattern. -/
def findStringIndexAux (pat : List Char) : List Char → Nat → Option (Nat × Nat)
  | [], i => if startsWith pat [] then some (i, i + pat.length) else none
  | c :: rest, i =>
    if startsWith pat (c :: rest) then some (i, i + pat.length)
    else findStringIndexAux pat rest (i + 1)

/-- Go `regexp.MustCompile(pat).FindStringIndex(s)` for a literal pattern `pat`. -/
def findStringIndex (pat s : List Char) : Option (Nat × Nat) :=
  findStringIndexAux pat s 0

/-- Specification-side predicate: the pattern occurs in `s` at index `i`. -/
def matchesAt (pat s : List Char) (i : Nat) : Prop :=
  (s.drop i).take pat.length = pat

instance (pat s : List Char) (i : Nat) : Decidable (matchesAt pat s i) :=
  inferInstanceAs (Decidable ((s.drop i).take pat.length = pat))

/-- Specification-side predicate: `s` contains `pat` as a substring. -/
def containsSub (pat s : List Char) : Prop :=
  ∃ i, matchesAt pat s i

/-- Specification-side predicate: `i` is the index of the first occurrence of `pat`
in `s`. -/
def firstMatchAt (pat s : List Char) (i : Nat) : Prop :=
  matchesAt pat s i ∧ ∀ j, j < i → ¬ matchesAt pat s j

instance (pat s : List Char) (i : Nat) : Decidable (firstMatchAt pat s i) :=
  inferInstanceAs (Decidable (_ ∧ _))

/-! ## pkg/auth: AuthConfig -/

/-- Struct `AuthConfig` of `pkg/auth`: Grafana username, password and URL, read
from the stored settings by `NewAuthConfig`. -/
structure AuthConfig where
  Username : List Char
  Password : List Char
  URL : List Char
deriving DecidableEq

/-- Method `AuthConfig.AuthString`: `config.Username + ":" + config.Password + "@"`. -/
def AuthConfig.AuthString (config : AuthConfig) : List Char :=
  config.Username ++ [':'] ++ config.Password ++ ['@']

/-- The literal pattern `http://` of `InjectAuthString`. -/
def httpPat : List Char := "http://".data

/-- The literal pattern `https://` of `InjectAuthString`. -/
def httpsPat : List Char := "https://".data

/-- Method `AuthConfig.InjectAuthString`: the index of the first occurrence of
`http://` is looked up first; when absent, the index of the first occurrence of
`https://`; when both are absent the function logs and returns `""`. On a hit,
the auth string is spliced in at the end index `idx.2` of the match:
`config.URL[:index[1]] + config.AuthString() + config.URL[index[1]:]`. -/
def AuthConfig.InjectAuthString (config : AuthConfig) : List Char :=
  match findStringIndex httpPat config.URL with
  | some idx => config.URL.take idx.2 ++ config.AuthString ++ config.URL.drop idx.2
  | none =>
    match findStringIndex httpsPat config.URL with
    | some idx => config.URL.take idx.2 ++ config.AuthString ++ config.URL.drop idx.2
    | none => []

/-- Method `AuthConfig.AuthURL`: delegates to `InjectAuthString`. -/
def AuthConfig.AuthURL (config : AuthConfig) : List Char :=
  config.InjectAuthString

/-! ## pkg/dbstore: datasource construction and database initialization -/

/-- Go `filepath.Join` on elements free of separators and dot segments: the
non-empty elements joined with the separator (`path.Clean` is the identity on
such a result). -/
def filepathJoin (elems : List String) : String :=
  String.intercalate "/" (elems.filter (fun e => e != ""))

/-- Struct `SQLiteDatasource`: the embedding keeps the `Path` field; the SDK
`instanceManager` field is opaque glue outside the claims. -/
structure SQLiteDatasource where
  Path : String
deriving DecidableEq

/-- Function `GetDataSource`: builds the datasource with
`Path = filepath.Join("..", "data", "msupply.db")`; it takes no input and reads
no settings. -/
def GetDataSource : SQLiteDatasource :=
  { Path := filepathJoin ["..", "data", "msupply.db"] }

/-- The five tables created by `Init`, named as in its
`CREATE TABLE IF NOT EXISTS` statements. -/
inductive TableName where
  | Schedule
  | Config
  | ReportGroup
  | ReportGroupMembership
  | ReportContent
deriving DecidableEq

/-- The tables of `Init`'s five statements, in statement order. -/
def initTables : List TableName :=
  [.Schedule, .Config, .ReportGroup, .ReportGroupMembership, .ReportContent]

/-- Effect of one executed `CREATE TABLE IF NOT EXISTS t` statement on the set of
existing tables: add `t` when absent, change nothing when present. -/
def createTableIfNotExists (schema : List TableName) (t : TableName) : List TableName :=
  if t ∈ schema then schema else schema ++ [t]

/-- Outcomes of the fallible calls `Init` makes: `Ping`, `sql.Open`, and
`db.Prepare` for each of the five statements (indexed in statement order).
`none` is a nil Go error. -/
structure InitEnv where
  pingErr : Option String
  openErr : Option String
  prepErr : Nat → Option String

/-- Result of running `Init`: a panic (explicit `panic(err)`, or the nil-statement
dereference when `Prepare` failed — `stmt.Exec()` runs before the error check),
or a normal return with the resulting schema. -/
inductive InitResult where
  | panicked (msg : String)
  | ok (schema : List TableName)
deriving DecidableEq

/-- The five `Prepare`/`Exec` steps of `Init`, statement `k` onwards: a `Prepare`
error panics (the nil `stmt.Exec()` dereferences before `panic(err)` is even
reached), a success executes the `CREATE TABLE IF NOT EXISTS`. -/
def runStmts (env : InitEnv) : Nat → List TableName → List TableName → InitResult
  | _, [], schema => .ok schema
  | k, t :: ts, schema =>
    match env.prepErr k with
    | some e => .panicked e
    | none => runStmts env (k + 1) ts (createTableIfNotExists schema t)

/-- Method `SQLiteDatasource.Init`: pings (panicking on error), opens the database
(panicking on error), then prepares and executes the five
`CREATE TABLE IF NOT EXISTS` statements in order. -/
def runInit (env : InitEnv) (schema : List TableName) : InitResult :=
  match env.pingErr with
  | some e => .panicked e
  | none =>
    match env.openErr with
    | some e => .panicked e
    | none => runStmts env 0 initTables schema

/-- An environment in which every database call of `Init` succeeds. -/
def cleanEnv : InitEnv :=
  { pingErr := none, openErr := none, prepErr := fun _ => none }

/-! ## pkg/dbstore: QueryData and CheckHealth -/

/-- One query of a `QueryDataRequest`: `RefID`, raw `JSON`, and the time range
(`time.Time` endpoints carried as integers; they are only copied, never
computed with). -/
structure DataQuery where
  RefID : String
  JSON : String
  TimeFrom : Int
  TimeTo : Int
deriving DecidableEq

/-- A data frame field (`data.NewField`): its name and values. -/
structure DataField where
  name : String
  values : List Int
deriving DecidableEq

/-- A data frame (`data.NewFrame`): its name and fields. -/
structure DataFrame where
  name : String
  fields : List DataField
deriving DecidableEq

/-- A `backend.DataResponse`: an optional error and the frames. -/
structure DataResponse where
  Error : Option String
  Frames : List DataFrame
deriving DecidableEq

/-- Outcome of `json.Unmarshal` on a query's JSON (only the error half is ever
stored by `query`, and it is immediately overwritten). -/
structure QueryEnv where
  unmarshalErr : String → Option String

/-- Method `SQLiteDatasource.query`: `response.Error` is assigned the
`json.Unmarshal` error, then reassigned `errors.New("Queries are not supported!")`;
the non-nil check then returns early, so the frame construction below it is dead
code (kept here as in the source). -/
def query (env : QueryEnv) (q : DataQuery) : DataResponse :=
  let response : DataResponse := { Error := none, Frames := [] }
  let response := { response with Error := env.unmarshalErr q.JSON }
  let response := { response with Error := some "Queries are not supported!" }
  if response.Error ≠ none then response
  else
    let frame : DataFrame := { name := "response", fields := [] }
    let timeField : DataField := { name := "time", values := [q.TimeFrom, q.TimeTo] }
    let frame := { frame with fields := frame.fields ++ [timeField] }
    let valuesField : DataField := { name := "values", values := [10, 20] }
    let frame := { frame with fields := frame.fields ++ [valuesField] }
    { response with Frames := response.Frames ++ [frame] }

/-- The response `query` produces for every query. -/
def errResponse : DataResponse :=
  { Error := some "Queries are not supported!", Frames := [] }

/-- Method `SQLiteDatasource.QueryData`: runs `query` on each query of the request,
storing each result in the response map under the query's `RefID` (a Go map write:
a later query with the same `RefID` overwrites), and returns the map together with
a nil Go error. -/
def QueryData (env : QueryEnv) (queries : List DataQuery) :
    (String → Option DataResponse) × Option String :=
  (queries.foldl
    (fun responses q => fun key => if key = q.RefID then some (query env q) else responses key)
    (fun _ => none),
   none)

/-- The `backend.HealthStatus` values `CheckHealth` uses. -/
inductive HealthStatus where
  | HealthStatusOk
  | HealthStatusError
deriving DecidableEq

/-- A `backend.CheckHealthResult`: status and message. -/
structure CheckHealthResult where
  Status : HealthStatus
  Message : String
deriving DecidableEq

/-- Method `SQLiteDatasource.CheckHealth` over the outcome of its `Ping()` call
(`none` is a nil error): a failed ping yields `HealthStatusError` with the ping
error appended to the fixed prefix, a successful ping yields `HealthStatusOk`;
the Go error returned alongside is nil in both cases. -/
def CheckHealth (pingErr : Option String) : CheckHealthResult × Option String :=
  match pingErr with
  | some e =>
    ({ Status := .HealthStatusError, Message := "Could not ping the database: " ++ e }, none)
  | none =>
    ({ Status := .HealthStatusOk, Message := "Yeah, nah, All good" }, none)

/-! ## Rows and the Schedule store -/

/-- A `Schedule` row, fields as in `Init`'s `CREATE TABLE IF NOT EXISTS Schedule`
statement (`TEXT` as `String`, `INTEGER` as `Int`). -/
structure Schedule where
  id : String
  interval : Int
  nextReportTime : Int
  name : String
  description : String
  lookback : Int
  reportGroupID : String
  time : String
  day : Int
deriving DecidableEq

/-- A `Config` row as in `Init`'s `CREATE TABLE IF NOT EXISTS Config` statement;
`GetSettings` reads it (`datasourceID` is the field `testEmail` forwards). -/
structure Settings where
  id : String
  grafanaUsername : String
  grafanaPassword : String
  emailPassword : String
  email : String
  datasourceID : Int
  emailHost : String
  emailPort : Int
  grafanaURL : String
deriving DecidableEq

/-- Modelled from the spec: the email credentials/host/port of the `Config` row,
as packaged by `auth.NewEmailConfig` (that function is outside the provided
sources; `testEmail` only passes the value through to the emailer). -/
structure EmailConfig where
  email : String
  emailPassword : String
  emailHost : String
  emailPort : Int
deriving DecidableEq

/-- Modelled from the spec: the `Schedule` table contents as a list of rows
(the CRUD handlers themselves are outside the provided sources; §3 gives the
schema, `id` the primary key). -/
def ScheduleStore : Type := List Schedule

/-- Modelled from the spec: whether the store has a row with the given id. -/
def hasRow : List Schedule → String → Bool
  | [], _ => false
  | r :: rest, i => decide (r.id = i) || hasRow rest i

/-- Modelled from the spec: read a Schedule row by id (`GetSchedule`);
the first row with a matching id, if any. -/
def getScheduleRow : List Schedule → String → Option Schedule
  | [], _ => none
  | r :: rest, i => if r.id = i then some r else getScheduleRow rest i

/-- Modelled from the spec: write a Schedule (§8's round-trip): an id-keyed
upsert — update the rows carrying the same id when one exists, insert the row
otherwise. -/
def writeSchedule (store : List Schedule) (s : Schedule) : List Schedule :=
  if hasRow store s.id then store.map (fun r => if r.id = s.id then s else r)
  else store ++ [s]

/-! ## pkg/server: the testEmail handler -/

/-- Externally visible actions of the `testEmail` handler, in order: HTTP writes
(`http.Error`, `rw.WriteHeader`), the `reportEmailer.CreateReport` call with its
arguments, and panics. -/
inductive ServerEvent where
  | httpError (status : Nat) (msg : String)
  | writeHeader (status : Nat)
  | createReport (schedule : Schedule) (authConfig : AuthConfig) (datasourceID : Int)
      (em : EmailConfig)
  | panicEv (msg : String)
deriving DecidableEq

/-- Outcomes of the calls `testEmail` makes: the mux route variables of the
request, and the results of `auth.NewEmailConfig`, `auth.NewAuthConfig`,
`db.GetSettings` and `db.GetSchedule`. -/
structure TestEmailEnv where
  vars : String → String
  newEmailConfig : Except String EmailConfig
  newAuthConfig : Except String AuthConfig
  getSettings : Except String Settings
  getSchedule : String → Except String Schedule

/-- Handler `HttpServer.testEmail` as its event trace: reads the id from mux
variable `"schedule-id"`; each of the three config/settings calls answers an
error with `http.Error(rw, err, 500)` followed by `panic(err)`; `GetSchedule`
answers an error with `http.Error(rw, err, 400)` followed by `panic(err)`;
on success `CreateReport(*schedule, authConfig, settings.DatasourceID, *em)`
runs and `rw.WriteHeader(200)` is written. -/
def testEmail (env : TestEmailEnv) : List ServerEvent :=
  let id := env.vars "schedule-id"
  match env.newEmailConfig with
  | .error e => [.httpError 500 e, .panicEv e]
  | .ok emailConfig =>
    match env.newAuthConfig with
    | .error e => [.httpError 500 e, .panicEv e]
    | .ok authConfig =>
      match env.getSettings with
      | .error e => [.httpError 500 e, .panicEv e]
      | .ok settings =>
        match env.getSchedule id with
        | .error e => [.httpError 400 e, .panicEv e]
        | .ok schedule =>
          [.createReport schedule authConfig settings.datasourceID emailConfig,
           .writeHeader 200]

/-! ## Concrete inputs used to instantiate the theorems -/

/-- A config whose URL carries the `https://` scheme. -/
def cfgW1 : AuthConfig :=
  { Username := "user".data, Password := "pass".data, URL := "https://grafana.local".data }

/-- A config whose URL carries neither scheme. -/
def cfgW2 : AuthConfig :=
  { Username := "user".data, Password := "pass".data, URL := "ftp://grafana.local".data }

/-- An initialization environment whose initial `Ping` fails. -/
def envW4 : InitEnv :=
  { pingErr := some "disk error", openErr := none, prepErr := fun _ => none }

/-- A concrete Schedule row. -/
def schedW : Schedule :=
  { id := "s1", interval := 1, nextReportTime := 0, name := "weekly", description := "d",
    lookback := 7, reportGroupID := "g1", time := "09:00", day := 1 }

/-- A concrete Config row. -/
def settingsW : Settings :=
  { id := "c1", grafanaUsername := "user", grafanaPassword := "pass",
    emailPassword := "epass", email := "a@b.c", datasourceID := 3,
    emailHost := "smtp.local", emailPort := 587, grafanaURL := "https://grafana.local" }

/-- A concrete email configuration. -/
def emailCfgW : EmailConfig :=
  { email := "a@b.c", emailPassword := "epass", emailHost := "smtp.local", emailPort := 587 }

/-- A handler environment in which `NewEmailConfig` fails. -/
def envW5 : TestEmailEnv :=
  { vars := fun _ => "s1", newEmailConfig := .error "boom",
    newAuthConfig := .ok cfgW1, getSettings := .ok settingsW,
    getSchedule := fun _ => .ok schedW }

/-- A handler environment in which every call succeeds and the store knows the
schedule `"s1"`. -/
def envW6 : TestEmailEnv :=
  { vars := fun _ => "s1", newEmailConfig := .ok emailCfgW,
    newAuthConfig := .ok cfgW1, getSettings := .ok settingsW,
    getSchedule := fun i => if i = "s1" then .ok schedW else .error "not found" }

/-- A query environment whose `json.Unmarshal` succeeds. -/
def qenvW : QueryEnv := { unmarshalErr := fun _ => none }

/-- A concrete data query. -/
def qW : DataQuery := { RefID := "A", JSON := "null", TimeFrom := 0, TimeTo := 1 }

/-! ## Correctness of the literal search -/

theorem startsWith_iff (pat : List Char) :
    ∀ t : List Char, startsWith pat t = true ↔ t.take pat.length = pat := by
  induction pat with
  | nil => intro t; simp [startsWith]
  | cons p ps ih =>
    intro t
    cases t with
    | nil => simp [startsWith]
    | cons c cs =>
      simp only [startsWith, Bool.and_eq_true, beq_iff_eq, List.length_cons,
        List.take_succ_cons, List.cons.injEq, ih]
      constructor
      · rintro ⟨h1, h2⟩; exact ⟨h1.symm, h2⟩
      · rintro ⟨h1, h2⟩; exact ⟨h1.symm, h2⟩

theorem findStringIndexAux_some (pat : List Char) :
    ∀ (s : List Char) (k i e : Nat), findStringIndexAux pat s k = some (i, e) →
      k ≤ i ∧ e = i + pat.length ∧ matchesAt pat s (i - k) ∧
        ∀ j, j < i - k → ¬ matchesAt pat s j := by
  intro s
  induction s with
  | nil =>
    intro k i e h
    simp only [findStringIndexAux] at h
    by_cases hs : startsWith pat [] = true
    · simp only [hs, if_true, Option.some.injEq, Prod.mk.injEq] at h
      obtain ⟨rfl, rfl⟩ := h
      refine ⟨le_refl k, rfl, ?_, ?_⟩
      · have := (startsWith_iff pat []).mp hs
        simpa [matchesAt] using this
      · intro j hj
        omega
    · simp [hs] at h
  | cons c rest ih =>
    intro k i e h
    simp only [findStringIndexAux] at h
    by_cases hs : startsWith pat (c :: rest) = true
    · simp only [hs, if_true, Option.some.injEq, Prod.mk.injEq] at h
      obtain ⟨rfl, rfl⟩ := h
      refine ⟨le_refl k, rfl, ?_, ?_⟩
      · have := (startsWith_iff pat (c :: rest)).mp hs
        simpa [matchesAt] using this
      · intro j hj
        omega
    · simp only [hs, if_false, Bool.false_eq_true] at h
      obtain ⟨hk, he, hm, hmin⟩ := ih (k + 1) i e h
      have hik : k + 1 ≤ i := hk
      refine ⟨by omega, he, ?_, ?_⟩
      · have : i - k = (i - (k + 1)) + 1 := by omega
        rw [this]
        simpa [matchesAt, List.drop_succ_cons] using hm
      · intro j hj
        cases j with
        | zero =>
          intro hm0
          apply hs
          exact (startsWith_iff pat (c :: rest)).mpr (by simpa [matchesAt] using hm0)
        | succ j' =>
          intro hmj
          have hj' : j' < i - (k + 1) := by omega
          exact hmin j' hj' (by simpa [matchesAt, List.drop_succ_cons] using hmj)

theorem findStringIndexAux_complete (pat : List Char) :
    ∀ (s : List Char) (k d : Nat), matchesAt pat s d →
      (∀ j, j < d → ¬ matchesAt pat s j) →
      findStringIndexAux pat s k = some (k + d, k + d + pat.length) := by
  intro s
  induction s with
  | nil =>
    intro k d hm hmin
    have hpat : pat = [] := by
      have : (([] : List Char).drop d).take pat.length = pat := hm
      simpa using this.symm
    cases d with
    | zero =>
      subst hpat
      simp [findStringIndexAux, startsWith]
    | succ d' =>
      exfalso
      apply hmin 0 (by omega)
      simp [matchesAt, hpat]
  | cons c rest ih =>
    intro k d hm hmin
    cases d with
    | zero =>
      have hs : startsWith pat (c :: rest) = true :=
        (startsWith_iff pat (c :: rest)).mpr (by simpa [matchesAt] using hm)
      simp [findStringIndexAux, hs]
    | succ d' =>
      have hs : ¬ startsWith pat (c :: rest) = true := by
        intro hs
        apply hmin 0 (by omega)
        simpa [matchesAt] using (startsWith_iff pat (c :: rest)).mp hs
      have hrec := ih (k + 1) d'
        (by simpa [matchesAt, List.drop_succ_cons] using hm)
        (fun j hj hmj => hmin (j + 1) (by omega)
          (by simpa [matchesAt, List.drop_succ_cons] using hmj))
      simp only [findStringIndexAux, hs, if_false, Bool.false_eq_true]
      rw [hrec]
      have : k + 1 + d' = k + (d' + 1) := by omega
      rw [this]

theorem findStringIndexAux_none (pat : List Char) :
    ∀ (s : List Char) (k : Nat),
      findStringIndexAux pat s k = none ↔ ∀ j, ¬ matchesAt pat s j := by
  intro s
  induction s with
  | nil =>
    intro k
    by_cases hs : startsWith pat [] = true
    · simp only [findStringIndexAux, hs, if_true]
      constructor
      · intro h; exact absurd h (by simp)
      · intro h
        exfalso
        exact h 0 (by simpa [matchesAt] using (startsWith_iff pat []).mp hs)
    · simp only [findStringIndexAux, hs, if_false, Bool.false_eq_true, true_iff]
      intro j hm
      apply hs
      apply (startsWith_iff pat []).mpr
      simpa [matchesAt] using hm
  | cons c rest ih =>
    intro k
    by_cases hs : startsWith pat (c :: rest) = true
    · simp only [findStringIndexAux, hs, if_true]
      constructor
      · intro h; exact absurd h (by simp)
      · intro h
        exfalso
        exact h 0 (by simpa [matchesAt] using (startsWith_iff pat (c :: rest)).mp hs)
    · simp only [findStringIndexAux, hs, if_false, Bool.false_eq_true, ih (k + 1)]
      constructor
      · intro h j
        cases j with
        | zero =>
          intro hm0
          exact hs ((startsWith_iff pat (c :: rest)).mpr (by simpa [matchesAt] using hm0))
        | succ j' =>
          intro hmj
          exact h j' (by simpa [matchesAt, List.drop_succ_cons] using hmj)
      · intro h j hmj
        exact h (j + 1) (by simpa [matchesAt, List.drop_succ_cons] using hmj)

theorem findStringIndex_some (pat s : List Char) (i e : Nat)
    (h : findStringIndex pat s = some (i, e)) :
    e = i + pat.length ∧ firstMatchAt pat s i := by
  obtain ⟨-, he, hm, hmin⟩ := findStringIndexAux_some pat s 0 i e h
  exact ⟨he, by simpa [firstMatchAt] using And.intro hm hmin⟩

theorem findStringIndex_of_first (pat s : List Char) (d : Nat)
    (h : firstMatchAt pat s d) :
    findStringIndex pat s = some (d, d + pat.length) := by
  have := findStringIndexAux_complete pat s 0 d h.1 h.2
  simpa [findStringIndex] using this

theorem findStringIndex_none_iff (pat s : List Char) :
    findStringIndex pat s = none ↔ ¬ containsSub pat s := by
  rw [findStringIndex, findStringIndexAux_none pat s 0]
  constructor
  · rintro h ⟨i, hi⟩; exact h i hi
  · intro h j hj; exact h ⟨j, hj⟩

/-- Helper for concrete negative containment checks: a pattern absent at every
index below the string length is absent altogether (a nonempty pattern never
matches past the end). -/
theorem not_containsSub_of_bounded (pat s : List Char) (hp : pat ≠ [])
    (h : ∀ i, i < s.length → ¬ matchesAt pat s i) : ¬ containsSub pat s := by
  rintro ⟨i, hi⟩
  by_cases hlt : i < s.length
  · exact h i hlt hi
  · have hdrop : s.drop i = [] := List.drop_eq_nil_of_le (by omega)
    rw [matchesAt, hdrop] at hi
    simp only [List.take_nil] at hi
    exact hp hi.symm

/-- A string containing a pattern has a first occurrence of it. -/
theorem containsSub_first (pat s : List Char) (h : containsSub pat s) :
    ∃ d, firstMatchAt pat s d :=
  ⟨Nat.find h, Nat.find_spec h, fun _ hj => Nat.find_min h hj⟩

/-! ## Claims about InjectAuthString -/

/-- Claim C1: for every `AuthConfig` whose URL contains the substring `http://`,
or otherwise contains `https://`, `InjectAuthString` returns the URL with
`Username + ":" + Password + "@"` spliced in immediately after the end of the
first occurrence of that scheme substring — `http://` being checked before
`https://` (check order, not leftmost occurrence in the string) — and the rest
of the URL unchanged. -/
theorem injectAuthString_c1 (config : AuthConfig)
    (h : containsSub httpPat config.URL ∨ containsSub httpsPat config.URL) :
    ∃ i pat,
      ((pat = httpPat ∧ firstMatchAt httpPat config.URL i) ∨
        (pat = httpsPat ∧ ¬ containsSub httpPat config.URL ∧
          firstMatchAt httpsPat config.URL i)) ∧
      config.InjectAuthString =
        config.URL.take (i + pat.length) ++ config.AuthString ++
          config.URL.drop (i + pat.length) := by
  cases hfi : findStringIndex httpPat config.URL with
  | some p =>
    obtain ⟨i, e⟩ := p
    obtain ⟨he, hfirst⟩ := findStringIndex_some _ _ _ _ hfi
    refine ⟨i, httpPat, Or.inl ⟨rfl, hfirst⟩, ?_⟩
    subst he
    simp [AuthConfig.InjectAuthString, hfi]
  | none =>
    have hnot : ¬ containsSub httpPat config.URL := (findStringIndex_none_iff _ _).mp hfi
    have hsub : containsSub httpsPat config.URL := by
      cases h with
      | inl h1 => exact absurd h1 hnot
      | inr h2 => exact h2
    obtain ⟨d, hfirst⟩ := containsSub_first _ _ hsub
    have hfi2 := findStringIndex_of_first _ _ _ hfirst
    refine ⟨d, httpsPat, Or.inr ⟨rfl, hnot, hfirst⟩, ?_⟩
    simp [AuthConfig.InjectAuthString, hfi, hfi2]

/-- Witness for C1 at a concrete config: `cfgW1` has URL `https://grafana.local`. -/
theorem injectAuthString_c1_witness :
    ∃ i pat,
      ((pat = httpPat ∧ firstMatchAt httpPat cfgW1.URL i) ∨
        (pat = httpsPat ∧ ¬ containsSub httpPat cfgW1.URL ∧
          firstMatchAt httpsPat cfgW1.URL i)) ∧
      cfgW1.InjectAuthString =
        cfgW1.URL.take (i + pat.length) ++ cfgW1.AuthString ++
          cfgW1.URL.drop (i + pat.length) :=
  injectAuthString_c1 cfgW1 (Or.inr ⟨0, by decide⟩)

/-- Claim C2: for every `AuthConfig` whose URL contains neither `http://` nor
`https://`, `InjectAuthString` returns the empty string (no error, no panic). -/
theorem injectAuthString_c2 (config : AuthConfig)
    (h1 : ¬ containsSub httpPat config.URL)
    (h2 : ¬ containsSub httpsPat config.URL) :
    config.InjectAuthString = [] := by
  have hf1 : findStringIndex httpPat config.URL = none :=
    (findStringIndex_none_iff _ _).mpr h1
  have hf2 : findStringIndex httpsPat config.URL = none :=
    (findStringIndex_none_iff _ _).mpr h2
  simp [AuthConfig.InjectAuthString, hf1, hf2]

/-- Witness for C2 at a concrete config: `cfgW2` has URL `ftp://grafana.local`. -/
theorem injectAuthString_c2_witness : cfgW2.InjectAuthString = [] :=
  injectAuthString_c2 cfgW2
    (not_containsSub_of_bounded _ _ (by decide) (by decide))
    (not_containsSub_of_bounded _ _ (by decide) (by decide))

/-! ## Claims about Init -/

theorem mem_createTableIfNotExists (schema : List TableName) (t u : TableName)
    (h : t ∈ schema) : t ∈ createTableIfNotExists schema u := by
  unfold createTableIfNotExists
  split
  · exact h
  · exact List.mem_append_left _ h

theorem self_mem_createTableIfNotExists (schema : List TableName) (t : TableName) :
    t ∈ createTableIfNotExists schema t := by
  unfold createTableIfNotExists
  split
  · assumption
  · exact List.mem_append_right _ (List.mem_singleton.mpr rfl)

theorem createTableIfNotExists_of_mem (schema : List TableName) (t : TableName)
    (h : t ∈ schema) : createTableIfNotExists schema t = schema := by
  unfold createTableIfNotExists
  simp [h]

theorem mem_foldl_createTable (ts : List TableName) :
    ∀ (schema : List TableName) (t : TableName), t ∈ schema →
      t ∈ ts.foldl createTableIfNotExists schema := by
  induction ts with
  | nil => intro schema t h; simpa using h
  | cons u ts ih =>
    intro schema t h
    simpa [List.foldl_cons] using ih _ t (mem_createTableIfNotExists _ _ _ h)

theorem self_mem_foldl_createTable (ts : List TableName) :
    ∀ (schema : List TableName) (t : TableName), t ∈ ts →
      t ∈ ts.foldl createTableIfNotExists schema := by
  induction ts with
  | nil => intro schema t h; simp at h
  | cons u ts ih =>
    intro schema t h
    rcases List.mem_cons.mp h with rfl | h
    · exact mem_foldl_createTable ts _ t (self_mem_createTableIfNotExists _ _)
    · exact ih _ t h

theorem foldl_createTable_of_all_mem (ts : List TableName) :
    ∀ schema, (∀ t ∈ ts, t ∈ schema) →
      ts.foldl createTableIfNotExists schema = schema := by
  induction ts with
  | nil => intro schema _; simp
  | cons u ts ih =>
    intro schema h
    have hu : u ∈ schema := h u (by simp)
    rw [List.foldl_cons, createTableIfNotExists_of_mem _ _ hu]
    exact ih schema (fun t ht => h t (by simp [ht]))

theorem runStmts_clean (ts : List TableName) :
    ∀ (k : Nat) (schema : List TableName),
      runStmts cleanEnv k ts schema = .ok (ts.foldl createTableIfNotExists schema) := by
  induction ts with
  | nil => intro k schema; simp [runStmts]
  | cons t ts ih => intro k schema; exact ih (k + 1) (createTableIfNotExists schema t)

theorem runStmts_panics (env : InitEnv) (ts : List TableName) :
    ∀ (base : Nat) (schema : List TableName),
      (∃ k, k < ts.length ∧ env.prepErr (base + k) ≠ none) →
      ∃ e, runStmts env base ts schema = .panicked e := by
  induction ts with
  | nil =>
    intro base schema h
    obtain ⟨k, hk, -⟩ := h
    simp at hk
  | cons t ts ih =>
    intro base schema h
    cases h0 : env.prepErr base with
    | some e => exact ⟨e, by simp [runStmts, h0]⟩
    | none =>
      obtain ⟨k, hk, hne⟩ := h
      have hk0 : k ≠ 0 := by
        rintro rfl
        exact hne (by simpa using h0)
      obtain ⟨k2, rfl⟩ : ∃ k2, k = k2 + 1 := ⟨k - 1, by omega⟩
      have hshift : ∃ k2, k2 < ts.length ∧ env.prepErr (base + 1 + k2) ≠ none := by
        refine ⟨k2, by simpa using hk, ?_⟩
        have : base + 1 + k2 = base + (k2 + 1) := by omega
        rw [this]
        exact hne
      obtain ⟨e, he⟩ := ih (base + 1) (createTableIfNotExists schema t) hshift
      exact ⟨e, by simp [runStmts, h0, he]⟩

/-- Claim C3: `Init` creates exactly the five tables `Schedule`, `Config`,
`ReportGroup`, `ReportGroupMembership`, `ReportContent`, each via
`CREATE TABLE IF NOT EXISTS`, and is idempotent: run on a database where it has
already succeeded, it returns normally and leaves the schema unchanged. -/
theorem init_c3 :
    runInit cleanEnv [] = .ok initTables ∧
      ∀ schema schema2, runInit cleanEnv schema = .ok schema2 →
        runInit cleanEnv schema2 = .ok schema2 := by
  constructor
  · decide
  · intro schema schema2 h
    have h1 : runInit cleanEnv schema =
        .ok (initTables.foldl createTableIfNotExists schema) := by
      simpa [runInit, cleanEnv] using runStmts_clean initTables 0 schema
    rw [h1] at h
    injection h with h
    have hall : ∀ t ∈ initTables, t ∈ schema2 := by
      intro t ht
      rw [← h]
      exact self_mem_foldl_createTable initTables schema t ht
    have h2 : runInit cleanEnv schema2 =
        .ok (initTables.foldl createTableIfNotExists schema2) := by
      simpa [runInit, cleanEnv] using runStmts_clean initTables 0 schema2
    rw [h2, foldl_createTable_of_all_mem initTables schema2 hall]

/-- Witness for C3: a second run of `Init` on the schema the first run produced
returns it unchanged. -/
theorem init_c3_witness : runInit cleanEnv initTables = .ok initTables :=
  init_c3.2 [] initTables (by decide)

/-- Claim C4: if the initial `Ping` fails, `sql.Open` fails, or preparing any of
the five `CREATE TABLE` statements returns an error, `Init` panics — it never
returns normally after a database initialization failure. -/
theorem init_c4 (env : InitEnv) (schema : List TableName)
    (h : env.pingErr ≠ none ∨ env.openErr ≠ none ∨
      ∃ k, k < 5 ∧ env.prepErr k ≠ none) :
    ∃ e, runInit env schema = .panicked e := by
  cases hp : env.pingErr with
  | some e => exact ⟨e, by simp [runInit, hp]⟩
  | none =>
    cases ho : env.openErr with
    | some e => exact ⟨e, by simp [runInit, hp, ho]⟩
    | none =>
      have h5 : ∃ k, k < 5 ∧ env.prepErr k ≠ none := by
        rcases h with h | h | h
        · exact absurd hp h
        · exact absurd ho h
        · exact h
      obtain ⟨k, hk, hne⟩ := h5
      obtain ⟨e, he⟩ := runStmts_panics env initTables 0 schema
        ⟨k, by simpa [initTables] using hk, by simpa using hne⟩
      exact ⟨e, by simp [runInit, hp, ho, he]⟩

/-- Witness for C4 at a concrete environment whose `Ping` fails. -/
theorem init_c4_witness : ∃ e, runInit envW4 [] = .panicked e :=
  init_c4 envW4 [] (Or.inl (by decide))

/-! ## Claims about the testEmail handler and GetDataSource -/

/-- Claim C5: in `testEmail`, an error from `NewEmailConfig`, `NewAuthConfig` or
`GetSettings` makes the handler write an HTTP 500 response and then panic, and an
error from `GetSchedule` makes it write an HTTP 400 response and then panic; in
every error case the panic comes after the HTTP error has been written (double
error signaling). -/
theorem testEmail_c5 (env : TestEmailEnv) (e : String) :
    (env.newEmailConfig = .error e →
      testEmail env = [.httpError 500 e, .panicEv e]) ∧
    (∀ ec, env.newEmailConfig = .ok ec → env.newAuthConfig = .error e →
      testEmail env = [.httpError 500 e, .panicEv e]) ∧
    (∀ ec ac, env.newEmailConfig = .ok ec → env.newAuthConfig = .ok ac →
      env.getSettings = .error e →
      testEmail env = [.httpError 500 e, .panicEv e]) ∧
    (∀ ec ac st, env.newEmailConfig = .ok ec → env.newAuthConfig = .ok ac →
      env.getSettings = .ok st →
      env.getSchedule (env.vars "schedule-id") = .error e →
      testEmail env = [.httpError 400 e, .panicEv e]) := by
  refine ⟨?_, ?_, ?_, ?_⟩
  · intro h1
    simp [testEmail, h1]
  · intro ec h1 h2
    simp [testEmail, h1, h2]
  · intro ec ac h1 h2 h3
    simp [testEmail, h1, h2, h3]
  · intro ec ac st h1 h2 h3 h4
    simp [testEmail, h1, h2, h3, h4]

/-- Witness for C5 at a concrete environment whose `NewEmailConfig` fails. -/
theorem testEmail_c5_witness :
    testEmail envW5 = [.httpError 500 "boom", .panicEv "boom"] :=
  (testEmail_c5 envW5 "boom").1 rfl

/-- Claim C6: `testEmail` reads the schedule id from mux variable `"schedule-id"`,
fetches exactly that schedule via `GetSchedule`, and passes it to `CreateReport`;
on the success path it responds with HTTP 200. -/
theorem testEmail_c6 (env : TestEmailEnv) (ec : EmailConfig) (ac : AuthConfig)
    (st : Settings) (sched : Schedule)
    (h1 : env.newEmailConfig = .ok ec) (h2 : env.newAuthConfig = .ok ac)
    (h3 : env.getSettings = .ok st)
    (h4 : env.getSchedule (env.vars "schedule-id") = .ok sched) :
    testEmail env =
      [.createReport sched ac st.datasourceID ec, .writeHeader 200] := by
  simp [testEmail, h1, h2, h3, h4]

/-- Witness for C6 at a concrete all-success environment. -/
theorem testEmail_c6_witness :
    testEmail envW6 =
      [.createReport schedW cfgW1 settingsW.datasourceID emailCfgW, .writeHeader 200] :=
  testEmail_c6 envW6 emailCfgW cfgW1 settingsW schedW rfl rfl rfl rfl

/-- Claim C7: the datasource returned by `GetDataSource` has its `Path` field set
to the fixed relative path `../data/msupply.db` — the `filepath.Join` of `".."`,
`"data"`, `"msupply.db"` — independent of any input or settings. -/
theorem getDataSource_c7 : GetDataSource.Path = "../data/msupply.db" := by
  decide

/-! ## Claims about the Schedule store, QueryData and CheckHealth -/

theorem getScheduleRow_map_update (s : Schedule) :
    ∀ store : List Schedule, hasRow store s.id = true →
      getScheduleRow (store.map (fun r => if r.id = s.id then s else r)) s.id = some s := by
  intro store
  induction store with
  | nil => intro h; simp [hasRow] at h
  | cons r rest ih =>
    intro h
    by_cases hr : r.id = s.id
    · simp [getScheduleRow, hr]
    · have hrest : hasRow rest s.id = true := by
        simpa [hasRow, hr] using h
      simp [getScheduleRow, hr, ih hrest]

theorem getScheduleRow_append_new (s : Schedule) :
    ∀ store : List Schedule, hasRow store s.id = false →
      getScheduleRow (store ++ [s]) s.id = some s := by
  intro store
  induction store with
  | nil => intro _; simp [getScheduleRow]
  | cons r rest ih =>
    intro h
    have hr : ¬ r.id = s.id := by
      intro he
      simp [hasRow, he] at h
    have hrest : hasRow rest s.id = false := by
      simpa [hasRow, hr] using h
    simp [getScheduleRow, hr, ih hrest]

/-- Claim C8 (spec-modelled store): writing any Schedule and reading it back by
its id returns the same Schedule unchanged. -/
theorem scheduleRoundTrip_c8 (store : List Schedule) (s : Schedule) :
    getScheduleRow (writeSchedule store s) s.id = some s := by
  unfold writeSchedule
  by_cases h : hasRow store s.id = true
  · rw [if_pos h]
    exact getScheduleRow_map_update s store h
  · rw [if_neg h]
    exact getScheduleRow_append_new s store (by simpa using h)

theorem query_eq_errResponse (env : QueryEnv) (q : DataQuery) :
    query env q = errResponse := rfl

theorem queryData_fold (env : QueryEnv) :
    ∀ (qs : List DataQuery) (m : String → Option DataResponse) (k : String),
      ((∃ q ∈ qs, q.RefID = k) ∨ m k = some errResponse) →
      (qs.foldl (fun responses q => fun key =>
          if key = q.RefID then some (query env q) else responses key) m) k =
        some errResponse := by
  intro qs
  induction qs with
  | nil =>
    intro m k h
    rcases h with ⟨q, hq, -⟩ | h
    · simp at hq
    · simpa using h
  | cons q0 qs ih =>
    intro m k h
    rw [List.foldl_cons]
    by_cases hk : k = q0.RefID
    · apply ih
      right
      simp [hk, query_eq_errResponse]
    · rcases h with ⟨q, hq, hr⟩ | hm
      · rcases List.mem_cons.mp hq with rfl | hq2
        · exact absurd hr.symm hk
        · apply ih
          left
          exact ⟨q, hq2, hr⟩
      · apply ih
        right
        simpa [hk] using hm

/-- Claim C9: the per-query `DataResponse` stored under each query's `RefID` has
the non-nil error `Queries are not supported!` and no frames (the frame-building
code past the early return is unreachable), while `QueryData` itself returns a
nil Go error. -/
theorem queryData_c9 (env : QueryEnv) (qs : List DataQuery) (q : DataQuery)
    (hq : q ∈ qs) :
    (QueryData env qs).1 q.RefID =
      some { Error := some "Queries are not supported!", Frames := [] } ∧
    (QueryData env qs).2 = none := by
  constructor
  · exact queryData_fold env qs _ q.RefID (Or.inl ⟨q, hq, rfl⟩)
  · rfl

/-- Witness for C9 at a one-query request. -/
theorem queryData_c9_witness :
    (QueryData qenvW [qW]).1 qW.RefID =
      some { Error := some "Queries are not supported!", Frames := [] } ∧
    (QueryData qenvW [qW]).2 = none :=
  queryData_c9 qenvW [qW] qW (List.mem_singleton.mpr rfl)

/-- Claim C10: `CheckHealth` always returns a nil Go error; a failed `Ping` yields
`HealthStatusError` with message `Could not ping the database: ` followed by the
ping error text, a successful `Ping` yields `HealthStatusOk` with message
`Yeah, nah, All good`. -/
theorem checkHealth_c10 (pingErr : Option String) :
    (CheckHealth pingErr).2 = none ∧
    (∀ e, pingErr = some e →
      (CheckHealth pingErr).1 =
        { Status := .HealthStatusError,
          Message := "Could not ping the database: " ++ e }) ∧
    (pingErr = none →
      (CheckHealth pingErr).1 =
        { Status := .HealthStatusOk, Message := "Yeah, nah, All good" }) := by
  refine ⟨?_, ?_, ?_⟩
  · cases pingErr <;> rfl
  · intro e h
    subst h
    rfl
  · intro h
    subst h
    rfl

/-- Witness for C10 at a concrete failed ping. -/
theorem checkHealth_c10_witness :
    (CheckHealth (some "no such file")).1 =
      { Status := .HealthStatusError,
        Message := "Could not ping the database: " ++ "no such file" } :=
  (checkHealth_c10 (some "no such file")).2.1 "no such file" rfl
